import Mathlib

/- Verification development for the ECG denoising and analysis routines of
   ecgDenoising.py and ecgAnalyses.py.

   Signals and coefficients are modelled as rational sequences.  The wavelet
   transform pair supplied by the external PyWavelets library is abstracted as
   a structure of transform functions, because the concrete Daubechies filter
   taps are irrational and play no role in the thresholding control flow under
   study; a concrete perfectly reconstructing instance (the lazy wavelet,
   even/odd polyphase split) is provided for witnesses and counterexamples.

   NumPy NaN values (means over empty data) are modelled as the none value of
   an optional rational, with the IEEE rule that every comparison against NaN
   is false.  Python exceptions are modelled with Except. -/

namespace ECG

/-! ## List helpers: Python slice semantics and getD/set reasoning -/

/-- Elementwise description of List.set through getD: positions other than the
written one (and all out-of-range writes) are unchanged. -/
theorem getD_set {α : Type} (l : List α) (i j : ℕ) (a d : α) :
    (l.set i a).getD j d = if i = j ∧ j < l.length then a else l.getD j d := by
  induction l generalizing i j with
  | nil => simp
  | cons x xs ih =>
    cases i with
    | zero =>
      cases j with
      | zero => simp
      | succ jj => simp
    | succ ii =>
      cases j with
      | zero => simp
      | succ jj =>
        simp only [List.set_cons_succ, List.getD_cons_succ, ih, List.length_cons]
        by_cases hij : ii = jj
        · subst hij
          by_cases hlt : ii < xs.length
          · rw [if_pos ⟨rfl, hlt⟩, if_pos ⟨rfl, by omega⟩]
          · rw [if_neg (fun h => hlt h.2), if_neg (fun h => hlt (by omega))]
        · rw [if_neg (fun h => hij h.1), if_neg (fun h => hij (by omega))]

/-- Python slicing sig[start:stop] on a list: negative indices count from the
end, and the bounds are clamped into range, so a slice never fails and never
reads outside the list. -/
def pySlice (xs : List ℚ) (start stop : ℤ) : List ℚ :=
  let n : ℤ := (xs.length : ℤ)
  let norm : ℤ → ℕ := fun i => (if i < 0 then max (n + i) 0 else min i n).toNat
  (xs.take (norm stop)).drop (norm start)

/-- A Python slice of a list is a sublist of it: slicing performs no
out-of-bounds element access. -/
theorem pySlice_sublist (xs : List ℚ) (a b : ℤ) : (pySlice xs a b).Sublist xs :=
  (List.drop_sublist _ _).trans (List.take_sublist _ _)

/-! ## The wavelet transform interface (PyWavelets, external)

pywt.dwt returns an approximation/detail pair; pywt.wavedec returns the list
[cA_n, cD_n, ..., cD_1], the deepest (coarsest) detail level first and the
first (finest) level last; pywt.waverec inverts wavedec.  The filter contents
are abstracted: the repository code never inspects them. -/

structure WaveletLib where
  dwt : List ℚ → List ℚ × List ℚ
  idwt : List ℚ → List ℚ → List ℚ
  wavedec : List ℚ → ℕ → List (List ℚ)
  waverec : List (List ℚ) → List ℚ

/-- Under the PyWavelets wavedec ordering [cA_n, cD_n, ..., cD_1], the detail
coefficients of level j (level 1 = finest) sit at index (length - j). -/
def pywtDetailOfLevel (coeffs : List (List ℚ)) (j : ℕ) : List ℚ :=
  coeffs.getD (coeffs.length - j) []

/-! ## swtDenoise (ecgDenoising.py lines 10-61) -/

/-- One iteration of the thresholding loop (lines 42-43 and 53-54): index k is
overwritten with 0 when the magnitude there reaches the threshold. -/
def gateStep (setThreshold : ℚ) (c : List ℚ) (k : ℕ) : List ℚ :=
  if setThreshold ≤ |c.getD k 0| then c.set k 0 else c

/-- The thresholding loop of swtDenoise (lines 41-43 and 52-54):
for k in range(0, len(cDetailed) - 1): zero cDetailed[k] when
abs(cDetailed[k]) >= setThreshold.  The range stops one index short of the
final coefficient. -/
def threshGate (setThreshold : ℚ) (cDetailed : List ℚ) : List ℚ :=
  (List.range (cDetailed.length - 1)).foldl (gateStep setThreshold) cDetailed

theorem gateStep_length (thr : ℚ) (c : List ℚ) (k : ℕ) :
    (gateStep thr c k).length = c.length := by
  unfold gateStep
  split <;> simp

theorem gateFold_length (thr : ℚ) (l : List ℕ) (c : List ℚ) :
    (l.foldl (gateStep thr) c).length = c.length := by
  induction l generalizing c with
  | nil => rfl
  | cons a l ih => rw [List.foldl_cons, ih, gateStep_length]

theorem gateStep_of_le (thr : ℚ) (c : List ℚ) (k : ℕ) (h : thr ≤ |c.getD k 0|) :
    gateStep thr c k = c.set k 0 := by
  unfold gateStep
  exact if_pos h

theorem gateStep_of_lt (thr : ℚ) (c : List ℚ) (k : ℕ) (h : ¬ thr ≤ |c.getD k 0|) :
    gateStep thr c k = c := by
  unfold gateStep
  exact if_neg h

theorem gateFold_getD (thr : ℚ) (c : List ℚ) (n k : ℕ) :
    ((List.range n).foldl (gateStep thr) c).getD k 0 =
      if k < n ∧ thr ≤ |c.getD k 0| then 0 else c.getD k 0 := by
  induction n generalizing k with
  | zero => simp
  | succ n ih =>
    rw [List.range_succ, List.foldl_append, List.foldl_cons, List.foldl_nil]
    have hlen : ((List.range n).foldl (gateStep thr) c).length = c.length :=
      gateFold_length thr _ c
    have hAn : ((List.range n).foldl (gateStep thr) c).getD n 0 = c.getD n 0 := by
      rw [ih n]
      simp
    by_cases hth : thr ≤ |((List.range n).foldl (gateStep thr) c).getD n 0|
    · rw [gateStep_of_le _ _ _ hth, getD_set, hlen, ih k]
      rw [hAn] at hth
      by_cases hk : n = k
      · subst hk
        by_cases hnl : n < c.length
        · rw [if_pos ⟨rfl, hnl⟩, if_pos ⟨Nat.lt_succ_self n, hth⟩]
        · rw [if_neg (fun h => hnl h.2),
              if_neg (fun h => absurd h.1 (lt_irrefl n)),
              if_pos ⟨Nat.lt_succ_self n, hth⟩]
          exact List.getD_eq_default _ _ (by omega)
      · rw [if_neg (fun h => hk h.1)]
        by_cases hkn : k < n
        · by_cases hP : thr ≤ |c.getD k 0|
          · rw [if_pos ⟨hkn, hP⟩, if_pos ⟨by omega, hP⟩]
          · rw [if_neg (fun h => hP h.2), if_neg (fun h => hP h.2)]
        · rw [if_neg (fun h => hkn h.1),
              if_neg (fun h => absurd h.1 (by omega))]
    · rw [gateStep_of_lt _ _ _ hth, ih k]
      rw [hAn] at hth
      by_cases hk : k = n
      · subst hk
        rw [if_neg (fun h => absurd h.1 (lt_irrefl k)), if_neg (fun h => hth h.2)]
      · by_cases hkn : k < n
        · by_cases hP : thr ≤ |c.getD k 0|
          · rw [if_pos ⟨hkn, hP⟩, if_pos ⟨by omega, hP⟩]
          · rw [if_neg (fun h => hP h.2), if_neg (fun h => hP h.2)]
        · rw [if_neg (fun h => hkn h.1),
              if_neg (fun h => absurd h.1 (by omega))]

/-- Elementwise description of the thresholding loop: position k is zeroed
exactly when it is not the final index and its magnitude reaches the
threshold; every other position, the final coefficient included, is kept. -/
theorem threshGate_getD (thr : ℚ) (c : List ℚ) (k : ℕ) :
    (threshGate thr c).getD k 0 =
      if k + 1 < c.length ∧ thr ≤ |c.getD k 0| then 0 else c.getD k 0 := by
  unfold threshGate
  rw [gateFold_getD]
  by_cases hP : thr ≤ |c.getD k 0|
  · by_cases hk : k + 1 < c.length
    · rw [if_pos ⟨by omega, hP⟩, if_pos ⟨hk, hP⟩]
    · rw [if_neg (fun h => absurd h.1 (by omega)), if_neg (fun h => hk h.1)]
  · rw [if_neg (fun h => hP h.2), if_neg (fun h => hP h.2)]

theorem threshGate_length (thr : ℚ) (c : List ℚ) :
    (threshGate thr c).length = c.length :=
  gateFold_length thr _ c

/-- When every coefficient is strictly below the threshold the loop changes
nothing. -/
theorem threshGate_eq_self (thr : ℚ) (c : List ℚ) (h : ∀ x ∈ c, |x| < thr) :
    threshGate thr c = c := by
  apply List.ext_getElem (threshGate_length thr c)
  intro i h1 h2
  rw [← List.getD_eq_getElem (threshGate thr c) 0 h1, ← List.getD_eq_getElem c 0 h2,
      threshGate_getD]
  have hmem : c.getD i 0 ∈ c := by
    rw [List.getD_eq_getElem c 0 h2]
    exact List.getElem_mem h2
  rw [if_neg (fun hc => absurd hc.2 (not_le.mpr (h _ hmem)))]

/-- Errors around swtDenoise.  The specification prescribes
invalidParameter for a bad level or a negative threshold; the source contains
no validation and never raises it.  indexError models the Python IndexError at
multilevelCoefficients[1] when the decomposition holds fewer than two
coefficient arrays. -/
inductive DenoiseError where
  | invalidParameter
  | indexError
deriving DecidableEq

/-- Lines 50-56 of ecgDenoising.py: the multi-level coefficient list after the
thresholding loop is applied in place to multilevelCoefficients[1]. -/
def swtGatedCoeffs (lib : WaveletLib) (signal : List ℚ) (level : ℕ) (thr : ℚ) :
    List (List ℚ) :=
  (lib.wavedec signal level).set 1
    (threshGate thr ((lib.wavedec signal level).getD 1 []))

/-- swtDenoise (ecgDenoising.py lines 10-61).  The wavelet family and order
arguments only select the transform, here abstracted as lib.  For
levelChoose = 1 (lines 29-30, 39-46): single-level decomposition, thresholding
loop over the detail coefficients, inverse transform.  Otherwise (lines 31-33,
48-59): multi-level decomposition, the same loop applied to
multilevelCoefficients[1] only, multi-level reconstruction.  No parameter is
validated anywhere in the body; the only failure mode is the Python IndexError
at the multilevelCoefficients[1] read. -/
def swtDenoise (lib : WaveletLib) (signal : List ℚ) (levelChoose : ℕ)
    (setThreshold : ℚ) : Except DenoiseError (List ℚ) :=
  if levelChoose = 1 then
    Except.ok (lib.idwt (lib.dwt signal).1 (threshGate setThreshold (lib.dwt signal).2))
  else
    if 1 < (lib.wavedec signal levelChoose).length then
      Except.ok (lib.waverec (swtGatedCoeffs lib signal levelChoose setThreshold))
    else
      Except.error DenoiseError.indexError

/-! ## A concrete perfectly reconstructing transform instance: the lazy
wavelet (even/odd polyphase split), exact over the rationals. -/

/-- Split a sequence into its even-index and odd-index subsequences. -/
def deinterleave : List ℚ → List ℚ × List ℚ
  | [] => ([], [])
  | x :: rest =>
    let p := deinterleave rest
    (x :: p.2, p.1)

/-- Inverse of deinterleave: alternate elements of the two sequences. -/
def interleave : List ℚ → List ℚ → List ℚ
  | [], ys => ys
  | x :: xs, [] => x :: xs
  | x :: xs, y :: ys => x :: y :: interleave xs ys

/-- Multi-level lazy wavelet decomposition in the PyWavelets coefficient order
[cA_n, cD_n, ..., cD_1]. -/
def lazyWavedec : ℕ → List ℚ → List (List ℚ)
  | 0, s => [s]
  | n + 1, s => lazyWavedec n (deinterleave s).1 ++ [(deinterleave s).2]

/-- The lazy wavelet as a transform library instance. -/
def evenOddLib : WaveletLib where
  dwt s := deinterleave s
  idwt a d := interleave a d
  wavedec s level := lazyWavedec level s
  waverec coeffs :=
    match coeffs with
    | [] => []
    | a :: ds => ds.foldl interleave a

/-! ## Claim C1 -/

/-- Claim C1, counterexample: with the lazy transform, signal [1,2,3,4],
level 1 and the non-negative threshold 1, the last detail coefficient (value 4)
has magnitude at or above the threshold yet survives the gate, and the
reconstruction keeps it: the loop over range(0, len-1) never zeroes the final
coefficient. -/
theorem swtDenoise_last_detail_not_gated_cex :
    (0 : ℚ) ≤ 1 ∧
    (1 : ℚ) ≤ |(evenOddLib.dwt [1, 2, 3, 4]).2.getD 1 0| ∧
    (threshGate 1 (evenOddLib.dwt [1, 2, 3, 4]).2).getD 1 0 ≠ 0 ∧
    swtDenoise evenOddLib [1, 2, 3, 4] 1 1 = Except.ok [1, 0, 3, 4] := by
  refine ⟨by norm_num, by decide, by decide, rfl⟩

/-- Claim C1, amended: for every transform, signal, threshold, and level = 1,
swtDenoise reconstructs from the gated detail coefficients, and the gate zeroes
exactly those coefficients that are not in the final position and whose
magnitude is at or above the threshold; coefficients strictly below the
threshold, and always the last coefficient, are kept unchanged. -/
theorem swtDenoise_gate_skips_last (lib : WaveletLib) (signal : List ℚ)
    (setThreshold : ℚ) (k : ℕ) :
    swtDenoise lib signal 1 setThreshold =
      Except.ok (lib.idwt (lib.dwt signal).1
        (threshGate setThreshold (lib.dwt signal).2)) ∧
    (threshGate setThreshold (lib.dwt signal).2).getD k 0 =
      (if k + 1 < (lib.dwt signal).2.length ∧
          setThreshold ≤ |(lib.dwt signal).2.getD k 0|
       then 0 else (lib.dwt signal).2.getD k 0) :=
  ⟨rfl, threshGate_getD setThreshold (lib.dwt signal).2 k⟩

/-! ## Claim C2 -/

/-- Claim C2, counterexample: lazy transform, signal [1,...,8], level 2,
threshold 1.  The decomposition is [[1,5],[3,7],[2,4,6,8]] in the library
order [cA_2, cD_2, cD_1].  After the gate, the first-level (finest) detail
sequence cD_1 = [2,4,6,8] is untouched even though gating it would have
changed it, while the deeper level cD_2 changed from [3,7] to [0,7]. -/
theorem swtDenoise_first_level_untouched_cex :
    pywtDetailOfLevel (swtGatedCoeffs evenOddLib [1, 2, 3, 4, 5, 6, 7, 8] 2 1) 1 =
      pywtDetailOfLevel (evenOddLib.wavedec [1, 2, 3, 4, 5, 6, 7, 8] 2) 1 ∧
    threshGate 1 (pywtDetailOfLevel (evenOddLib.wavedec [1, 2, 3, 4, 5, 6, 7, 8] 2) 1) ≠
      pywtDetailOfLevel (evenOddLib.wavedec [1, 2, 3, 4, 5, 6, 7, 8] 2) 1 ∧
    pywtDetailOfLevel (swtGatedCoeffs evenOddLib [1, 2, 3, 4, 5, 6, 7, 8] 2 1) 2 ≠
      pywtDetailOfLevel (evenOddLib.wavedec [1, 2, 3, 4, 5, 6, 7, 8] 2) 2 := by
  refine ⟨rfl, by decide, by decide⟩

/-- Claim C2, amended: for every transform and signal, when the decomposition
for level n (n at least 2) has the n+1 coefficient arrays of the wavedec
ordering [cA_n, cD_n, ..., cD_1], swtDenoise gates the array at index 1,
which is the deepest-level detail sequence cD_n; every detail sequence of a
level below n (the first, finest level included) and the approximation are
left completely unchanged before multi-level reconstruction. -/
theorem swtDenoise_gates_deepest_level_only (lib : WaveletLib) (signal : List ℚ)
    (n : ℕ) (thr : ℚ) (j : ℕ)
    (hlen : (lib.wavedec signal n).length = n + 1)
    (hn : 2 ≤ n) (_hj1 : 1 ≤ j) (hjn : j < n) :
    pywtDetailOfLevel (swtGatedCoeffs lib signal n thr) j =
      pywtDetailOfLevel (lib.wavedec signal n) j ∧
    pywtDetailOfLevel (swtGatedCoeffs lib signal n thr) n =
      threshGate thr (pywtDetailOfLevel (lib.wavedec signal n) n) ∧
    (swtGatedCoeffs lib signal n thr).getD 0 [] =
      (lib.wavedec signal n).getD 0 [] := by
  have hslen : (swtGatedCoeffs lib signal n thr).length = (lib.wavedec signal n).length :=
    List.length_set _ _ _
  unfold pywtDetailOfLevel swtGatedCoeffs
  unfold swtGatedCoeffs at hslen
  rw [hslen, hlen, getD_set, getD_set, getD_set]
  refine ⟨?_, ?_, ?_⟩
  · rw [if_neg (fun h => absurd h.1 (by omega))]
  · rw [if_pos ⟨by omega, by omega⟩]
    have h1 : n + 1 - n = 1 := by omega
    rw [h1]
  · rw [if_neg (fun h => absurd h.1 (by omega))]

/-- Claim C2, witness: the amended statement instantiated at the lazy
transform, signal [1,...,8], level 2, threshold 1, lower level j = 1. -/
theorem swtDenoise_gates_deepest_level_only_witness :
    pywtDetailOfLevel (swtGatedCoeffs evenOddLib [1, 2, 3, 4, 5, 6, 7, 8] 2 1) 1 =
      pywtDetailOfLevel (evenOddLib.wavedec [1, 2, 3, 4, 5, 6, 7, 8] 2) 1 ∧
    pywtDetailOfLevel (swtGatedCoeffs evenOddLib [1, 2, 3, 4, 5, 6, 7, 8] 2 1) 2 =
      threshGate 1 (pywtDetailOfLevel (evenOddLib.wavedec [1, 2, 3, 4, 5, 6, 7, 8] 2) 2) ∧
    (swtGatedCoeffs evenOddLib [1, 2, 3, 4, 5, 6, 7, 8] 2 1).getD 0 [] =
      (evenOddLib.wavedec [1, 2, 3, 4, 5, 6, 7, 8] 2).getD 0 [] :=
  swtDenoise_gates_deepest_level_only evenOddLib [1, 2, 3, 4, 5, 6, 7, 8] 2 1 1
    (by decide) (by decide) (by decide) (by decide)

/-! ## Claim C3 -/

/-- Claim C3, counterexample: the lazy transform reconstructs [1,2,3,4]
perfectly from its untouched decomposition, yet swtDenoise at threshold 0
returns [1,0,3,4]: with threshold 0 every gated detail coefficient satisfies
the zeroing test, so the reconstruction differs from the original signal by 2
at index 1 — not within any small tolerance. -/
theorem swtDenoise_threshold_zero_not_identity_cex :
    evenOddLib.idwt (evenOddLib.dwt [1, 2, 3, 4]).1 (evenOddLib.dwt [1, 2, 3, 4]).2 =
      [1, 2, 3, 4] ∧
    swtDenoise evenOddLib [1, 2, 3, 4] 1 0 = Except.ok [1, 0, 3, 4] ∧
    ([1, 0, 3, 4] : List ℚ) ≠ [1, 2, 3, 4] :=
  ⟨rfl, rfl, by decide⟩

/-- Claim C3, amended: threshold 0 is the maximal-gating boundary, not the
identity; the round-trip identity holds instead when the threshold strictly
exceeds the magnitude of every detail coefficient and the transform pair
reconstructs perfectly: then no coefficient is altered and swtDenoise returns
the original signal exactly. -/
theorem swtDenoise_identity_above_max_detail (lib : WaveletLib) (signal : List ℚ)
    (thr : ℚ)
    (hrec : lib.idwt (lib.dwt signal).1 (lib.dwt signal).2 = signal)
    (hthr : ∀ c ∈ (lib.dwt signal).2, |c| < thr) :
    swtDenoise lib signal 1 thr = Except.ok signal := by
  have hgate : threshGate thr (lib.dwt signal).2 = (lib.dwt signal).2 :=
    threshGate_eq_self thr _ hthr
  show Except.ok (lib.idwt (lib.dwt signal).1 (threshGate thr (lib.dwt signal).2)) = _
  rw [hgate, hrec]

/-- Claim C3, witness: lazy transform, signal [1,2,3,4], threshold 5 (above
both detail magnitudes 2 and 4): the reconstruction is the original signal. -/
theorem swtDenoise_identity_above_max_detail_witness :
    swtDenoise evenOddLib [1, 2, 3, 4] 1 5 = Except.ok [1, 2, 3, 4] :=
  swtDenoise_identity_above_max_detail evenOddLib [1, 2, 3, 4] 5 rfl (by decide)

/-! ## Claim C4 -/

/-- Claim C4, counterexample: at the negative threshold -1 swtDenoise does not
raise InvalidParameterError; it returns a normal reconstruction. -/
theorem swtDenoise_negative_threshold_no_error_cex :
    swtDenoise evenOddLib [1, 2, 3, 4] 1 (-1) = Except.ok [1, 0, 3, 4] ∧
    (Except.ok [1, 0, 3, 4] : Except DenoiseError (List ℚ)) ≠
      Except.error DenoiseError.invalidParameter :=
  ⟨rfl, fun h => Except.noConfusion h⟩

/-- Claim C4, amended: swtDenoise performs no parameter validation and never
raises InvalidParameterError; for any negative threshold it returns a normal
reconstruction in which every gated detail coefficient (all but the last) is
zeroed, because the magnitude test against a negative threshold holds
vacuously. -/
theorem swtDenoise_no_parameter_validation (lib : WaveletLib) (signal : List ℚ)
    (setThreshold : ℚ) (k : ℕ)
    (hneg : setThreshold < 0)
    (hk : k + 1 < (lib.dwt signal).2.length) :
    swtDenoise lib signal 1 setThreshold =
      Except.ok (lib.idwt (lib.dwt signal).1
        (threshGate setThreshold (lib.dwt signal).2)) ∧
    (threshGate setThreshold (lib.dwt signal).2).getD k 0 = 0 := by
  refine ⟨rfl, ?_⟩
  rw [threshGate_getD]
  exact if_pos ⟨hk, le_trans (le_of_lt hneg) (abs_nonneg _)⟩

/-- Claim C4, witness: the amended statement at the lazy transform, signal
[1,2,3,4], threshold -1, index 0. -/
theorem swtDenoise_no_parameter_validation_witness :
    swtDenoise evenOddLib [1, 2, 3, 4] 1 (-1) =
      Except.ok (evenOddLib.idwt (evenOddLib.dwt [1, 2, 3, 4]).1
        (threshGate (-1) (evenOddLib.dwt [1, 2, 3, 4]).2)) ∧
    (threshGate (-1) (evenOddLib.dwt [1, 2, 3, 4]).2).getD 0 0 = 0 :=
  swtDenoise_no_parameter_validation evenOddLib [1, 2, 3, 4] (-1) 0
    (by norm_num) (by decide)

/-! ## ECG analyses (ecgAnalyses.py)

NumPy means of empty data are NaN, modelled as none; every comparison against
NaN is false, exactly as in IEEE floating point. -/

/-- Mean of a sequence: np.mean.  For the empty sequence the rational quotient
is 0/0 = 0; callers that need the NumPy NaN use npMean instead. -/
def popMean (xs : List ℚ) : ℚ := xs.sum / (xs.length : ℚ)

/-- Population variance (np.std with ddof = 0, squared). -/
def popVar (xs : List ℚ) : ℚ :=
  ((xs.map (fun x => (x - popMean xs) ^ 2)).sum) / (xs.length : ℚ)

/-- np.mean with NumPy semantics: the mean of an empty sequence is NaN
(a RuntimeWarning, not an exception). -/
def npMean (xs : List ℚ) : Option ℚ :=
  if xs.isEmpty then none else some (popMean xs)

/-- NaN-propagating subtraction. -/
def nSub (a b : Option ℚ) : Option ℚ :=
  match a, b with
  | some x, some y => some (x - y)
  | _, _ => none

/-- The comparison abs(a) > t with NaN semantics: false when a is NaN. -/
def nAbsGt (a : Option ℚ) (t : ℚ) : Bool :=
  match a with
  | some x => decide (t < |x|)
  | none => false

theorem popVar_nonneg (xs : List ℚ) : 0 ≤ popVar xs := by
  apply div_nonneg
  · apply List.sum_nonneg
    intro x hx
    obtain ⟨y, _, rfl⟩ := List.mem_map.1 hx
    positivity
  · positivity

/-- Deciding sqrt v ≤ t over the rationals: for 0 ≤ v this holds iff t is
non-negative and v ≤ t squared.  This keeps the embedding of the np.std
comparison computable while the bridging theorem below ties it to Real.sqrt. -/
theorem sqrt_le_iff_rat (v t : ℚ) (hv : 0 ≤ v) :
    Real.sqrt (v : ℝ) ≤ (t : ℝ) ↔ (0 ≤ t ∧ v ≤ t ^ 2) := by
  constructor
  · intro h
    have ht : (0 : ℝ) ≤ (t : ℝ) := le_trans (Real.sqrt_nonneg _) h
    have hv2 : ((v : ℝ)) ≤ (t : ℝ) ^ 2 := by
      have hs := Real.sq_sqrt (show (0 : ℝ) ≤ (v : ℝ) by exact_mod_cast hv)
      nlinarith [Real.sqrt_nonneg (v : ℝ)]
    exact ⟨by exact_mod_cast ht, by exact_mod_cast hv2⟩
  · rintro ⟨ht, hvt⟩
    have h1 : Real.sqrt (v : ℝ) ≤ Real.sqrt ((t : ℝ) ^ 2) :=
      Real.sqrt_le_sqrt (by exact_mod_cast hvt)
    rwa [Real.sqrt_sq (by exact_mod_cast ht)] at h1

/-! ## calculate_heart_rate (ecgAnalyses.py lines 37-53) -/

/-- Return value of calculate_heart_rate: the early branch (line 48) returns
the bare scalar 0, the main branch (lines 50-53) the pair of heart rate and
RR-interval series — a Python function whose two paths have different result
shapes. -/
inductive HRResult where
  | scalar (value : ℚ)
  | pair (heart_rate : ℚ) (rr_intervals : List ℚ)
deriving DecidableEq

/-- np.diff: consecutive differences. -/
def npDiff (xs : List ℤ) : List ℤ :=
  List.zipWith (fun a b => a - b) (xs.drop 1) xs

/-- calculate_heart_rate (lines 37-53): with at most one peak it returns the
bare scalar 0; otherwise RR intervals are consecutive peak-index differences
divided by the sampling rate and the heart rate is 60 over their mean. -/
def calculate_heart_rate (r_peak_indices : List ℤ) (sampling_rate : ℚ) : HRResult :=
  if r_peak_indices.length ≤ 1 then
    HRResult.scalar 0
  else
    HRResult.pair
      (60 / popMean ((npDiff r_peak_indices).map (fun d => (d : ℚ) / sampling_rate)))
      ((npDiff r_peak_indices).map (fun d => (d : ℚ) / sampling_rate))

/-! ## Claim C5 -/

/-- Claim C5, counterexample: for an empty peak sequence calculate_heart_rate
returns the bare scalar 0, which is not the pair (0, empty series). -/
theorem calculate_heart_rate_scalar_not_pair_cex :
    calculate_heart_rate [] 1000 = HRResult.scalar 0 ∧
    calculate_heart_rate [] 1000 ≠ HRResult.pair 0 [] :=
  ⟨rfl, by decide⟩

/-- Claim C5, amended: for every peak index sequence with at most one element
and every sampling rate, calculate_heart_rate returns exactly the bare scalar
0 — not an error, but also not the pair (0, empty series). -/
theorem calculate_heart_rate_few_peaks_scalar_zero (r_peak_indices : List ℤ)
    (sampling_rate : ℚ) (h : r_peak_indices.length ≤ 1) :
    calculate_heart_rate r_peak_indices sampling_rate = HRResult.scalar 0 := by
  unfold calculate_heart_rate
  rw [if_pos h]

/-- Claim C5, witness: a single peak at index 42, sampling rate 500. -/
theorem calculate_heart_rate_few_peaks_scalar_zero_witness :
    calculate_heart_rate [42] 500 = HRResult.scalar 0 :=
  calculate_heart_rate_few_peaks_scalar_zero [42] 500 (by decide)

/-! ## analyze_rhythm (ecgAnalyses.py lines 55-71) -/

/-- analyze_rhythm (lines 55-71): compare np.std(rr_intervals) (population
standard deviation) with the threshold.  np.std of an empty series is NaN and
the NaN comparison is false, so an empty series falls to the Irregular branch.
For a nonempty series, sqrt(variance) ≤ threshold is decided by the equivalent
rational test 0 ≤ threshold and variance ≤ threshold squared (theorem
sqrt_le_iff_rat). -/
def analyze_rhythm (rr_intervals : List ℚ) (threshold : ℚ) : String :=
  if rr_intervals.isEmpty then "Irregular"
  else if 0 ≤ threshold ∧ popVar rr_intervals ≤ threshold ^ 2 then "Regular"
  else "Irregular"

/-! ## Claim C6 -/

/-- Claim C6, counterexample: the empty interval series (0 intervals, the
degenerate case the claim says classifies Regular) classifies Irregular at the
default threshold 0.15, because np.std of an empty series is NaN and NaN
compares false. -/
theorem analyze_rhythm_empty_irregular_cex :
    analyze_rhythm [] (15 / 100) = "Irregular" ∧
    ("Irregular" : String) ≠ "Regular" :=
  ⟨rfl, by decide⟩

/-- Claim C6, amended: analyze_rhythm returns Regular iff the interval series
is nonempty and its population standard deviation is at most the threshold; a
1-interval series has standard deviation 0 and classifies Regular for any
non-negative threshold, but the empty series classifies Irregular through the
NaN comparison. -/
theorem analyze_rhythm_regular_iff (rr_intervals : List ℚ) (threshold : ℚ) :
    analyze_rhythm rr_intervals threshold = "Regular" ↔
      (rr_intervals ≠ [] ∧
        Real.sqrt ((popVar rr_intervals : ℚ) : ℝ) ≤ ((threshold : ℚ) : ℝ)) := by
  have hstr : ("Irregular" : String) ≠ "Regular" := by decide
  unfold analyze_rhythm
  by_cases he : rr_intervals.isEmpty
  · rw [if_pos he]
    have hnil : rr_intervals = [] := List.isEmpty_iff.mp he
    constructor
    · intro h
      exact absurd h hstr
    · rintro ⟨hne, -⟩
      exact absurd hnil hne
  · rw [if_neg he]
    have hne : rr_intervals ≠ [] := fun hnil => he (by rw [hnil]; rfl)
    rw [sqrt_le_iff_rat _ _ (popVar_nonneg rr_intervals)]
    by_cases hc : 0 ≤ threshold ∧ popVar rr_intervals ≤ threshold ^ 2
    · rw [if_pos hc]
      exact ⟨fun _ => ⟨hne, hc⟩, fun _ => rfl⟩
    · rw [if_neg hc]
      exact ⟨fun h => absurd h hstr, fun h => absurd h.2 hc⟩

/-! ## analyze_st_segment (ecgAnalyses.py lines 73-103) -/

/-- Error raised by np.mean over a ragged list of segments: NumPy (1.24 and
later) rejects a sequence of arrays of unequal lengths as an inhomogeneous
shape (ValueError) before any mean is taken. -/
inductive NpError where
  | inhomogeneous
deriving DecidableEq

/-- Whether all segments have the same length, i.e. whether np.mean over the
list of segments is well formed as a rectangular 2-D array. -/
def homogLengths (segs : List (List ℚ)) : Bool :=
  segs.all (fun s => s.length = (segs.headD []).length)

/-- np.mean over a list of equal-length segments pools every element; a list
of unequal-length segments is an inhomogeneous array and raises; a pool with
no elements at all gives NaN. -/
def npMeanPooled (segs : List (List ℚ)) : Except NpError (Option ℚ) :=
  if homogLengths segs then Except.ok (npMean segs.flatten)
  else Except.error NpError.inhomogeneous

/-- ST windows of analyze_st_segment (line 84-89): for each R-peak the slice
from peak + int(0.2 * fs) spanning int(0.08 * fs) samples.  With an integer
sampling rate the float products are exact, so the offsets reduce to integer
arithmetic.  Python slicing clamps, so near-boundary windows silently come
back truncated or empty. -/
def stSegments (ecg_signal : List ℚ) (r_peak_indices : List ℤ)
    (sampling_rate : ℕ) : List (List ℚ) :=
  r_peak_indices.map (fun r_peak =>
    pySlice ecg_signal (r_peak + ((2 * sampling_rate) / 10 : ℕ))
      (r_peak + ((2 * sampling_rate) / 10 : ℕ) + ((8 * sampling_rate) / 100 : ℕ)))

/-- TP windows of analyze_st_segment (lines 91-92): for each R-peak the
int(0.08 * fs) samples immediately before it.  A peak closer to the start than
the window length makes the start index negative, which Python interprets from
the end of the list: the slice then typically comes back empty. -/
def tpSegments (ecg_signal : List ℚ) (r_peak_indices : List ℤ)
    (sampling_rate : ℕ) : List (List ℚ) :=
  r_peak_indices.map (fun r_peak =>
    pySlice ecg_signal (r_peak - ((8 * sampling_rate) / 100 : ℕ)) r_peak)

/-- Pooled baseline of analyze_st_segment (line 95): np.mean over all TP
segments together. -/
def st_baseline (ecg_signal : List ℚ) (r_peak_indices : List ℤ)
    (sampling_rate : ℕ) : Except NpError (Option ℚ) :=
  npMeanPooled (tpSegments ecg_signal r_peak_indices sampling_rate)

/-- analyze_st_segment (lines 73-103): per-peak ST amplitude is the mean of
the ST window minus the pooled baseline; Abnormal when some amplitude exceeds
0.1 in magnitude, Normal otherwise.  NaN means (empty windows, or a baseline
over zero samples) compare false and so never trigger Abnormal; the only
failure is the inhomogeneous pooled mean. -/
def analyze_st_segment (ecg_signal : List ℚ) (r_peak_indices : List ℤ)
    (sampling_rate : ℕ) : Except NpError String :=
  match st_baseline ecg_signal r_peak_indices sampling_rate with
  | Except.error e => Except.error e
  | Except.ok b =>
    if ((stSegments ecg_signal r_peak_indices sampling_rate).map
          (fun st_segment => nSub (npMean st_segment) b)).any
        (fun a => nAbsGt a (1 / 10)) then
      Except.ok "Abnormal"
    else
      Except.ok "Normal"

/-- An if-then-else over two ok results never equals an error. -/
theorem if_ok_ne_error {ε α : Type} (b : Bool) (x y : α) (e : ε) :
    (if b then Except.ok x else Except.ok y) ≠ Except.error e := by
  cases b
  · exact fun h => Except.noConfusion h
  · exact fun h => Except.noConfusion h

/-- Normal form of analyze_st_segment: the match on the pooled baseline
unfolded into the homogeneity test. -/
theorem analyze_st_segment_eq (ecg_signal : List ℚ) (r_peak_indices : List ℤ)
    (sampling_rate : ℕ) :
    analyze_st_segment ecg_signal r_peak_indices sampling_rate =
      if homogLengths (tpSegments ecg_signal r_peak_indices sampling_rate) then
        (if ((stSegments ecg_signal r_peak_indices sampling_rate).map
              (fun st_segment => nSub (npMean st_segment)
                (npMean (tpSegments ecg_signal r_peak_indices sampling_rate).flatten))).any
            (fun a => nAbsGt a (1 / 10)) then
          Except.ok "Abnormal"
        else Except.ok "Normal")
      else Except.error NpError.inhomogeneous := by
  unfold analyze_st_segment st_baseline npMeanPooled
  cases hh : homogLengths (tpSegments ecg_signal r_peak_indices sampling_rate) with
  | false => rfl
  | true => rfl

/-- A 20-sample flat test signal (sampling rate 50 gives a 4-sample ST window
span and a 10-sample ST offset, keeping the arithmetic small). -/
def testSig : List ℚ := List.replicate 20 0

/-! ## Claim C8 -/

/-- Claim C8, counterexample: signal of 20 samples at sampling rate 50, peaks
at 2 and 10.  The TP window of peak 2 starts at the negative index -2, wraps
to index 18 and comes back empty, while the TP window of peak 10 has 4
samples; the pooled np.mean over the ragged pair raises NumPy's
inhomogeneous-shape error instead of excluding the boundary peak and
classifying the rest. -/
theorem analyze_st_segment_ragged_error_cex :
    analyze_st_segment testSig [2, 10] 50 = Except.error NpError.inhomogeneous ∧
    (Except.error NpError.inhomogeneous : Except NpError String) ≠ Except.ok "Normal" ∧
    (Except.error NpError.inhomogeneous : Except NpError String) ≠ Except.ok "Abnormal" :=
  ⟨rfl, fun h => Except.noConfusion h, fun h => Except.noConfusion h⟩

/-- Claim C8, amended: peaks whose ST or TP windows fall outside the signal
are neither detected nor excluded.  Every window is clamped by Python slicing
semantics, so each extracted segment is a sublist of the signal and no
out-of-bounds element access occurs; all segments enter the pool, and the
function raises NumPy's inhomogeneous-shape error — never a per-peak
InsufficientDataError — exactly when the TP segments have unequal lengths. -/
theorem analyze_st_segment_no_boundary_exclusion (ecg_signal : List ℚ)
    (r_peak_indices : List ℤ) (sampling_rate : ℕ) (seg : List ℚ)
    (hseg : seg ∈ tpSegments ecg_signal r_peak_indices sampling_rate ∨
        seg ∈ stSegments ecg_signal r_peak_indices sampling_rate) :
    seg.Sublist ecg_signal ∧
    (analyze_st_segment ecg_signal r_peak_indices sampling_rate =
        Except.error NpError.inhomogeneous ↔
      homogLengths (tpSegments ecg_signal r_peak_indices sampling_rate) = false) := by
  constructor
  · rcases hseg with h | h
    · obtain ⟨r, -, rfl⟩ := List.mem_map.1 h
      exact pySlice_sublist _ _ _
    · obtain ⟨r, -, rfl⟩ := List.mem_map.1 h
      exact pySlice_sublist _ _ _
  · rw [analyze_st_segment_eq]
    cases hh : homogLengths (tpSegments ecg_signal r_peak_indices sampling_rate) with
    | false => exact ⟨fun _ => rfl, fun _ => rfl⟩
    | true =>
      exact ⟨fun h => absurd h (if_ok_ne_error _ _ _ _),
             fun h => Bool.noConfusion h⟩

/-- Claim C8, witness: the amended statement at the 20-sample test signal,
peaks 2 and 10, sampling rate 50, with the empty TP segment of peak 2. -/
theorem analyze_st_segment_no_boundary_exclusion_witness :
    List.Sublist ([] : List ℚ) testSig ∧
    (analyze_st_segment testSig [2, 10] 50 = Except.error NpError.inhomogeneous ↔
      homogLengths (tpSegments testSig [2, 10] 50) = false) :=
  analyze_st_segment_no_boundary_exclusion testSig [2, 10] 50 []
    (Or.inl (by decide))

/-! ## Claim C10 -/

/-- Claim C10: with no R-peaks both segment lists are empty, the pooled
baseline is the mean over zero TP segments (NaN, not an exception), the
amplitude list is empty, the abnormality loop never triggers, and the function
returns Normal without raising. -/
theorem analyze_st_segment_empty_peaks_normal (ecg_signal : List ℚ)
    (sampling_rate : ℕ) :
    tpSegments ecg_signal [] sampling_rate = [] ∧
    stSegments ecg_signal [] sampling_rate = [] ∧
    st_baseline ecg_signal [] sampling_rate = Except.ok none ∧
    analyze_st_segment ecg_signal [] sampling_rate = Except.ok "Normal" :=
  ⟨rfl, rfl, rfl, rfl⟩

/-! ## Python NameError models (ecgAnalyses.py analyze_pr_interval,
ecgDenoising.py calculateSTDev_SNR) -/

/-- A Python NameError: evaluation of an unbound name. -/
inductive PyError where
  | nameError
deriving DecidableEq

/-- analyze_pr_interval (ecgAnalyses.py lines 126-173).  The body iterates
over r_peak_indices (line 143) and slices ecg_data (line 147), but neither
name is a parameter of the function nor bound at module level in
ecgAnalyses.py, so every invocation raises NameError at the first loop header
before any peak search, interval computation, or classification happens. -/
def analyze_pr_interval (rr_intervals : List ℚ) (sampling_rate : ℕ)
    (threshold : ℚ) : Except PyError String :=
  Except.error PyError.nameError

/-! ## Claim C7 -/

/-- Claim C7: analyze_pr_interval never reaches the matched-pair analysis; at
a concrete input it raises NameError (an unbound-name failure, not
InsufficientDataError) and returns no classification at all. -/
theorem analyze_pr_interval_always_name_error :
    analyze_pr_interval [4 / 5, 4 / 5] 1000 (2 / 10) =
      Except.error PyError.nameError ∧
    ∀ s : String, analyze_pr_interval [4 / 5, 4 / 5] 1000 (2 / 10) ≠ Except.ok s :=
  ⟨rfl, fun _ h => Except.noConfusion h⟩

/-- calculateSTDev_SNR (ecgDenoising.py lines 64-83).  Lines 76-78 compute the
axis mean and standard deviation of the input matrix, but line 81 evaluates an
expression over signal, peaks and denoised_ecg — names that are neither
parameters nor module-level bindings of ecgDenoising.py — so every invocation
raises NameError before the guarded ratio np.where(sd == 0, 0, m / sd) of line
83 can be returned. -/
def calculateSTDev_SNR (arr : List (List ℚ)) (axis ddof : ℕ) :
    Except PyError (List ℚ) :=
  Except.error PyError.nameError

/-! ## Claim C9 -/

/-- Claim C9: calculateSTDev_SNR does not return normally; at a concrete 2-D
input with axis 0 and ddof 0 it raises NameError from the stray line 81, never
reaching the guarded divide of the return statement. -/
theorem calculateSTDev_SNR_always_name_error :
    calculateSTDev_SNR [[1, 2], [3, 4]] 0 0 = Except.error PyError.nameError ∧
    ∀ v : List ℚ, calculateSTDev_SNR [[1, 2], [3, 4]] 0 0 ≠ Except.ok v :=
  ⟨rfl, fun _ h => Except.noConfusion h⟩

end ECG
